import Mathlib

/-!
Verification of the tile-source adapter layer and the renderer/overlay
pipeline of a tile server.

The development shallowly embeds the JavaScript sources:
  - `src/pmtiles_adapter.js` (S3 URL parsing, config precedence, metadata
    and tile fetching with retry/backoff),
  - the rendered-map module (resolver miss handling, marker option
    parsing, render timeout handling, output compositing),
  - `src/serve_data.js` / `src/utils.js` (tile data routes and helpers).

JavaScript numbers on the geographic paths are embedded as `Rat`
(the source only performs exact decimal arithmetic on them here);
JavaScript strings are embedded as `String` manipulated through their
`List Char` data.  Asynchronous callbacks are embedded as explicit event
sequences; promises that may reject are embedded as `Except`.
-/

/- ### Errors surfaced by the PMTiles archive reader

`getPMtilesInfo` / `getPMtilesTile` only inspect an error through
`error.message.includes('429')` and
`error.message.includes('Bad response code:')`.  An error is embedded as
the pair of those two observations. -/

/-- Observable content of a JavaScript `Error` thrown by the archive
reader: whether its message contains `'429'` and whether it contains
`'Bad response code:'`. -/
structure ErrMsg where
  has429 : Bool
  hasBadResponseCode : Bool
deriving DecidableEq

/-- Outcome of `getPMtilesInfo`: a metadata value, an error rethrown from
the loop body (the source wraps it with the file name), or the
unreachable after-loop throw. -/
inductive InfoResult (α : Type) where
  | ok (v : α)
  | thrown (e : ErrMsg)
  | exhausted
deriving DecidableEq

/-- Trace of one run of `getPMtilesInfo`: its outcome, how many times the
underlying archive operation was attempted, and the backoff delays
(in milliseconds) slept between attempts. -/
structure InfoTrace (α : Type) where
  result : InfoResult α
  attemptsMade : Nat
  delays : List Nat
deriving DecidableEq

/-- Loop body of `getPMtilesInfo` (src/pmtiles_adapter.js:371-450).
`behav attempt` is the outcome of the `try` block (header+metadata fetch)
at that attempt index.  `fuel` counts the remaining loop iterations
(`fuel = maxRetries - attempt` at every call).  Mirrors the source:
on success return; on an error containing `'429'` before the last
attempt, sleep `2^attempt * 1000` ms and continue; otherwise, if the
error lacks `'429'` or this is the last attempt, rethrow; the remaining
(dead) branch falls through to the next iteration without delay. -/
def getPMtilesInfoAux (behav : Nat → Except ErrMsg α) (maxRetries : Nat) :
    Nat → Nat → InfoTrace α
  | 0, _ => ⟨.exhausted, 0, []⟩
  | fuel + 1, attempt =>
    match behav attempt with
    | .ok v => ⟨.ok v, 1, []⟩
    | .error e =>
      if e.has429 = true ∧ attempt < maxRetries - 1 then
        let r := getPMtilesInfoAux behav maxRetries fuel (attempt + 1)
        ⟨r.result, r.attemptsMade + 1, 2 ^ attempt * 1000 :: r.delays⟩
      else if e.has429 = false ∨ attempt = maxRetries - 1 then
        ⟨.thrown e, 1, []⟩
      else
        let r := getPMtilesInfoAux behav maxRetries fuel (attempt + 1)
        ⟨r.result, r.attemptsMade + 1, r.delays⟩

/-- `getPMtilesInfo(pmtiles, inputFile, maxRetries)`: run the retry loop
from attempt 0. -/
def getPMtilesInfoRun (behav : Nat → Except ErrMsg α) (maxRetries : Nat) :
    InfoTrace α :=
  getPMtilesInfoAux behav maxRetries maxRetries 0

/-- Trace of one run of `getPMtilesTile`: the returned tile (`none` is
the distinguished no-tile result), the number of attempts of the
underlying archive operation, and the backoff delays slept. -/
structure TileTrace (α : Type) where
  result : Option α
  attemptsMade : Nat
  delays : List Nat
deriving DecidableEq

/-- Loop body of `getPMtilesTile` (src/pmtiles_adapter.js:461-504).
`behav attempt` is the outcome of the `try` block at that attempt:
`.ok none` when `getZxy` yields no tile data, `.ok (some v)` on a tile,
`.error e` when the block throws.  Mirrors the source: a no-tile result
returns `null` at once; an error containing `'429'` before the last
attempt sleeps `2^attempt * 1000` ms and continues; an error containing
`'Bad response code:'` returns `null`; any other error merely logs, so
control falls through to the next loop iteration with no delay; when the
loop ends, `null` is returned. -/
def getPMtilesTileAux (behav : Nat → Except ErrMsg (Option α)) (maxRetries : Nat) :
    Nat → Nat → TileTrace α
  | 0, _ => ⟨none, 0, []⟩
  | fuel + 1, attempt =>
    match behav attempt with
    | .ok none => ⟨none, 1, []⟩
    | .ok (some v) => ⟨some v, 1, []⟩
    | .error e =>
      if e.has429 = true ∧ attempt < maxRetries - 1 then
        let r := getPMtilesTileAux behav maxRetries fuel (attempt + 1)
        ⟨r.result, r.attemptsMade + 1, 2 ^ attempt * 1000 :: r.delays⟩
      else if e.hasBadResponseCode = true then
        ⟨none, 1, []⟩
      else
        let r := getPMtilesTileAux behav maxRetries fuel (attempt + 1)
        ⟨r.result, r.attemptsMade + 1, r.delays⟩

/-- `getPMtilesTile(pmtiles, z, x, y, maxRetries)`: run the retry loop
from attempt 0. -/
def getPMtilesTileRun (behav : Nat → Except ErrMsg (Option α)) (maxRetries : Nat) :
    TileTrace α :=
  getPMtilesTileAux behav maxRetries maxRetries 0

/- ### PMTiles header to metadata (body of `getPMtilesInfo`) -/

/-- The fields of the archive header that `getPMtilesInfo` reads.
Bounds fields are `Option` because the source checks
`typeof header.minLon === 'number'` (null/undefined possible); the
center zoom is `Option` because the source tests it for truthiness. -/
structure PMHeader where
  tileType : Nat
  minZoom : Nat
  maxZoom : Nat
  minLon : Option Rat
  minLat : Option Rat
  maxLon : Option Rat
  maxLat : Option Rat
  centerLon : Rat
  centerLat : Rat
  centerZoom : Option Rat
deriving DecidableEq

/-- Result of `getPmtilesTileType`: the format string and the
`Content-Type` header value (both absent for unlisted codes; the format
is the literal `'Unknown'` for code 0, which carries no content type). -/
structure TileTypeInfo where
  type : Option String
  contentType : Option String
deriving DecidableEq

/-- `getPmtilesTileType` (src/pmtiles_adapter.js:511-540). -/
def getPmtilesTileType : Nat → TileTypeInfo
  | 0 => ⟨some "Unknown", none⟩
  | 1 => ⟨some "pbf", some "application/x-protobuf"⟩
  | 2 => ⟨some "png", some "image/png"⟩
  | 3 => ⟨some "jpeg", some "image/jpeg"⟩
  | 4 => ⟨some "webp", some "image/webp"⟩
  | 5 => ⟨some "avif", some "image/avif"⟩
  | _ + 6 => ⟨none, none⟩

/-- The metadata fields `getPMtilesInfo` computes from the header. -/
structure PMMetadata where
  format : Option String
  minzoom : Nat
  maxzoom : Nat
  bounds : List Rat
  center : Rat × Rat × Rat
deriving DecidableEq

/-- The default bounds literal of the source:
`[-180, -85.05112877980659, 180, 85.0511287798066]`. -/
def defaultBoundsLiteral : List Rat :=
  [-180, -(8505112877980659 : Rat) / 100000000000000, 180,
    (850511287798066 : Rat) / 10000000000000]

/-- JavaScript truthiness of a numeric field: absent and `0` are falsy. -/
def jsTruthyNum : Option Rat → Bool
  | none => false
  | some q => decide (q ≠ 0)

/-- The metadata computation in the body of `getPMtilesInfo`
(src/pmtiles_adapter.js:379-419): format and zooms from the header;
bounds passed through only when all four are numbers and not all zero,
else the default extent; center zoom from the header when truthy, else
`maxzoom / 2`. -/
def buildPMtilesMetadata (h : PMHeader) : PMMetadata :=
  let hasBounds : Prop :=
    (h.minLon.isSome = true ∧ h.minLat.isSome = true ∧
      h.maxLon.isSome = true ∧ h.maxLat.isSome = true) ∧
    ¬(h.minLon = some 0 ∧ h.minLat = some 0 ∧
      h.maxLon = some 0 ∧ h.maxLat = some 0)
  { format := (getPmtilesTileType h.tileType).type
    minzoom := h.minZoom
    maxzoom := h.maxZoom
    bounds :=
      if hasBounds then
        [h.minLon.getD 0, h.minLat.getD 0, h.maxLon.getD 0, h.maxLat.getD 0]
      else defaultBoundsLiteral
    center :=
      if jsTruthyNum h.centerZoom then
        (h.centerLon, h.centerLat, h.centerZoom.getD 0)
      else
        (h.centerLon, h.centerLat, (h.maxZoom : Rat) / 2) }

/- ### Character-list utilities

JavaScript string operations are embedded as operations on the `List Char`
data of a `String`.  `split(sep)` and "up to the first `sep`" are the two
primitives the sources use. -/

/-- JS `string.split(sep)` for a one-character separator. -/
def splitOnChar (sep : Char) : List Char → List (List Char)
  | [] => [[]]
  | c :: cs =>
    if c = sep then [] :: splitOnChar sep cs
    else
      match splitOnChar sep cs with
      | [] => [[c]]
      | h :: t => (c :: h) :: t

/-- Break a list at the first occurrence of `sep`: the part before it and,
when `sep` occurs, the part after it. -/
def breakAtChar (sep : Char) : List Char → List Char × Option (List Char)
  | [] => ([], none)
  | c :: cs =>
    if c = sep then ([], some cs)
    else
      let r := breakAtChar sep cs
      (c :: r.1, r.2)

/- ### S3 URL parsing (`S3Source.parseS3Url`) -/

/-- The value `parseS3Url` returns: endpoint (already prefixed with
`https://`, or absent for plain AWS form), bucket, key, and the
URL-level region/profile/requestPayer values. -/
structure S3Parsed where
  endpoint : Option String
  bucket : String
  key : String
  region : String
  profile : Option String
  requestPayer : Bool
deriving DecidableEq

/-- The key/value pairs of a query string as `URLSearchParams` exposes
them: split on `'&'`, empty segments skipped, each segment broken at its
first `'='` (a segment with no `'='` maps to the empty value).
Percent-decoding is not modelled; the development only evaluates this on
values without percent escapes. -/
def queryPairs (q : List Char) : List (List Char × List Char) :=
  ((splitOnChar '&' q).filter (fun s => s ≠ [])).map
    (fun s => ((breakAtChar '=' s).1, ((breakAtChar '=' s).2).getD []))

/-- `URLSearchParams.get`: the value of the first pair with the given
key, or `none`. -/
def searchParamsGet (q : List Char) (key : List Char) : Option (List Char) :=
  ((queryPairs q).find? (fun p => decide (p.1 = key))).map Prod.snd

/-- The `s3://` scheme test of the three URL patterns
(all are anchored on `^s3://`): the remainder after the scheme. -/
def s3Rest : List Char → Option (List Char)
  | 's' :: '3' :: ':' :: '/' :: '/' :: rest => some rest
  | _ => none

/-- First path component test of the `customWithDot` pattern
(`[^/]*` then a dot then `[^/]+`): the component contains a dot followed
by at least one more character. -/
def hasDotWithTail (l : List Char) : Bool :=
  decide ('.' ∈ l.dropLast)

/-- The `customForced` pattern (`s3://`, one slash-free nonempty
component, a slash, another, a slash, a nonempty remainder) applied to
the part after the scheme. -/
def matchCustomForced (rest : List Char) :
    Option (List Char × List Char × List Char) :=
  match breakAtChar '/' rest with
  | (p1, some r1) =>
    match breakAtChar '/' r1 with
    | (p2, some r2) =>
      if p1 ≠ [] ∧ p2 ≠ [] ∧ r2 ≠ [] then some (p1, p2, r2) else none
    | (_, none) => none
  | (_, none) => none

/-- The `customWithDot` pattern: as `customForced` but the first
component must contain a dot with a character after it. -/
def matchCustomWithDot (rest : List Char) :
    Option (List Char × List Char × List Char) :=
  match breakAtChar '/' rest with
  | (p1, some r1) =>
    match breakAtChar '/' r1 with
    | (p2, some r2) =>
      if hasDotWithTail p1 = true ∧ p2 ≠ [] ∧ r2 ≠ [] then
        some (p1, p2, r2)
      else none
    | (_, none) => none
  | (_, none) => none

/-- The `aws` pattern (`s3://`, one slash-free nonempty component, a
slash, a nonempty remainder). -/
def matchAws (rest : List Char) : Option (List Char × List Char) :=
  match breakAtChar '/' rest with
  | (p1, some r1) => if p1 ≠ [] ∧ r1 ≠ [] then some (p1, r1) else none
  | (_, none) => none

/-- `S3Source.parseS3Url(url, s3UrlFormat)`
(src/pmtiles_adapter.js:75-143).  `envRegion` stands for
`process.env.AWS_REGION` (the empty string when unset, matching the
falsiness of both).  Mirrors the source: an invalid format hint is
discarded; the part after the first `'?'` (itself truncated at the next
`'?'`, as `url.split('?')` keeps only the second piece) supplies
URL-level defaults when nonempty; the hint (config value first, then the
URL parameter) selects the pattern, auto-detection trying
`customWithDot` before `aws`; no match yields `none` (the thrown
`Invalid S3 URL format` error). -/
def parseS3Url (url : String) (s3UrlFormat : Option String) (envRegion : String) :
    Option S3Parsed :=
  let fmt0 : Option String :=
    match s3UrlFormat with
    | some f => if f = "aws" ∨ f = "custom" then some f else none
    | none => none
  let broken := breakAtChar '?' url.data
  let cleanUrl := broken.1
  let queryString : Option (List Char) :=
    broken.2.map (fun r => (breakAtChar '?' r).1)
  let region0 : List Char :=
    if envRegion.data = [] then "us-east-1".data else envRegion.data
  let hasQuery : Bool :=
    match queryString with
    | none => false
    | some q => decide (q ≠ [])
  let q := queryString.getD []
  let profile : Option (List Char) :=
    if hasQuery then searchParamsGet q "profile".data else none
  let region : List Char :=
    if hasQuery then (searchParamsGet q "region".data).getD region0 else region0
  let fmt : Option String :=
    if hasQuery then
      match fmt0 with
      | some f => some f
      | none => (searchParamsGet q "s3UrlFormat".data).map (⟨·⟩)
    else fmt0
  let requestPayer : Bool :=
    if hasQuery then
      match searchParamsGet q "requestPayer".data with
      | some v => decide (v = "true".data ∨ v = "1".data)
      | none => false
    else false
  let build : List Char × List Char × List Char → S3Parsed := fun m =>
    { endpoint := some ("https://" ++ (⟨m.1⟩ : String))
      bucket := ⟨m.2.1⟩
      key := ⟨m.2.2⟩
      region := ⟨region⟩
      profile := profile.map (⟨·⟩)
      requestPayer := requestPayer }
  let buildAws : List Char × List Char → S3Parsed := fun m =>
    { endpoint := none
      bucket := ⟨m.1⟩
      key := ⟨m.2⟩
      region := ⟨region⟩
      profile := profile.map (⟨·⟩)
      requestPayer := requestPayer }
  match s3Rest cleanUrl with
  | none => none
  | some rest =>
    if fmt = some "custom" then (matchCustomForced rest).map build
    else if fmt = some "aws" then (matchAws rest).map buildAws
    else
      match matchCustomWithDot rest with
      | some m => some (build m)
      | none => (matchAws rest).map buildAws

/- ### S3 configuration precedence (`S3Source` constructor) -/

/-- The caller-supplied configuration the `S3Source` constructor
receives (each field may be absent). -/
structure S3CallerConfig where
  s3Profile : Option String
  configRequestPayer : Option Bool
  configRegion : Option String

/-- The three settings the constructor resolves. -/
structure S3Resolved where
  profile : Option String
  region : String
  requestPayer : Bool
deriving DecidableEq

/-- JS `a || b` where `a` is an optional string: absence and the empty
string are falsy. -/
def jsOrStr (a : Option String) (b : Option String) : Option String :=
  match a with
  | some s => if s = "" then b else some s
  | none => b

/-- The precedence lines of the `S3Source` constructor
(src/pmtiles_adapter.js:41-43):
`profile = s3Profile || parsed.profile`,
`requestPayer = configRequestPayer ?? parsed.requestPayer`,
`region = configRegion || parsed.region`. -/
def resolveS3Settings (cfg : S3CallerConfig) (parsed : S3Parsed) : S3Resolved :=
  { profile := jsOrStr cfg.s3Profile parsed.profile
    requestPayer := cfg.configRequestPayer.getD parsed.requestPayer
    region :=
      match cfg.configRegion with
      | some s => if s = "" then parsed.region else s
      | none => parsed.region }

/- ### Resolver tile dispatch (`createRenderer` request handler) -/

/-- One invocation of the mlgl resource callback for an archive-tile
request: `absent` is `callback()` (no error, no data — the intentional
sparse miss); `empty` is `createEmptyResponse(sourceInfo.format,
sourceInfo.color, callback)`; `tile` is `callback(null, response)` with
the fetched data; `failed` is `callback(err, ...)`, possible on other
resource paths of the handler but listed here to state that the miss
branches never produce it. -/
inductive ResolverOutcome (δ : Type) where
  | absent
  | empty (format : Option String) (color : Option String)
  | tile (data : δ)
  | failed (err : String)
deriving DecidableEq

/-- The miss handling of the `mbtiles`/`pmtiles` branch of the renderer's
request callback (the lines following `fetchTileData`): a null fetch on a
source whose `sparse` equals `true` answers `callback()`; any other null
fetch answers a synthesized empty response from the source's declared
format and color; a fetched tile is passed through.  `sparse` is
`Option Bool` because the style source's field may be absent
(`sourceInfo.sparse == true` is false then). -/
def resolveArchiveTile {δ : Type} :
    Option δ → Option Bool → Option String → Option String → ResolverOutcome δ
  | none, some true, _, _ => .absent
  | none, none, format, color => .empty format color
  | none, some false, format, color => .empty format color
  | some d, _, _, _ => .tile d

/-- `createEmptyResponse(format, color, callback)`: no or `pbf` format
yields the cached zero-length buffer; `jpg` is renamed `jpeg`; a falsy
color becomes fully transparent white; otherwise a 1×1 image of that
color in that format is synthesized (the codec call itself is outside
scope — the function's dispatch on format and color is what is
embedded). -/
inductive EmptyResponse where
  | rawEmpty
  | image (format : String) (color : String)
deriving DecidableEq

/-- Dispatch of `createEmptyResponse` (format/color normalization). -/
def createEmptyResponse (format color : Option String) : EmptyResponse :=
  match format with
  | none => .rawEmpty
  | some f =>
    if f = "" ∨ f = "pbf" then .rawEmpty
    else
      let f2 := if f = "jpg" then "jpeg" else f
      let c :=
        match color with
        | none => "rgba(255,255,255,0)"
        | some c0 => if c0 = "" then "rgba(255,255,255,0)" else c0
      .image f2 c

/- ### Marker option parsing (`parseMarkerOptions`) -/

/-- The numeric attributes `parseMarkerOptions` may set on a marker
object (each absent until an option sets it). -/
structure Marker where
  scale : Option Rat := none
  offsetX : Option Rat := none
  offsetY : Option Rat := none
deriving DecidableEq

/-- The natural number a digit run denotes. -/
def natOfDigits (l : List Char) : Nat :=
  l.foldl (fun acc c => acc * 10 + (c.toNat - '0'.toNat)) 0

/-- Decimal scan behind `jsParseFloat`: sign, value of the integer digit
run, value and count of the fraction digit run; `none` when there are no
digits at all (`NaN`). -/
def jsParseFloatParts (l : List Char) : Option (Bool × Nat × Nat × Nat) :=
  let neg : Bool := match l with
    | '-' :: _ => true
    | _ => false
  let r1 : List Char := match l with
    | '-' :: t => t
    | '+' :: t => t
    | t => t
  let intDigits := r1.takeWhile Char.isDigit
  let r2 := r1.dropWhile Char.isDigit
  match r2 with
  | '.' :: r3 =>
    let fracDigits := r3.takeWhile Char.isDigit
    if intDigits = [] ∧ fracDigits = [] then none
    else some (neg, natOfDigits intDigits, natOfDigits fracDigits, fracDigits.length)
  | _ =>
    if intDigits = [] then none
    else some (neg, natOfDigits intDigits, 0, 0)

/-- JS `parseFloat` restricted to the plain decimal forms the marker
options use: optional sign, integer digits, optional dot and fraction
digits, parsed as the longest such leading run; `none` is `NaN` (no
leading digits at all).  Exponent notation, `Infinity` and leading
whitespace are not modelled; no theorem evaluates it on such input. -/
def jsParseFloat (l : List Char) : Option Rat :=
  (jsParseFloatParts l).map (fun p =>
    let mag : Rat := (p.2.1 : Rat) + (p.2.2.1 : Rat) / (10 : Rat) ^ p.2.2.2
    if p.1 then -mag else mag)

/-- One iteration of the `parseMarkerOptions` loop on one option string:
split on `':'`; fewer than two parts are skipped; `scale` sets the scale
only for a parsed value strictly between 0 and 10; `offset` splits its
value on `','` and sets each axis only for a parsed value of absolute
value below 1000; unknown names are skipped. -/
def parseMarkerOption (marker : Marker) (options : String) : Marker :=
  match splitOnChar ':' options.data with
  | [] => marker
  | [_] => marker
  | name :: value :: _ =>
    if name = "scale".data then
      match jsParseFloat value with
      | some s => if 0 < s ∧ s < 10 then { marker with scale := some s } else marker
      | none => marker
    else if name = "offset".data then
      let providedOffset := splitOnChar ',' value
      let m1 :=
        match jsParseFloat (providedOffset.headD []) with
        | some x => if |x| < 1000 then { marker with offsetX := some x } else marker
        | none => marker
      match providedOffset with
      | _ :: oy :: _ =>
        match jsParseFloat oy with
        | some y => if |y| < 1000 then { m1 with offsetY := some y } else m1
        | none => m1
      | _ => m1
    else marker

/-- `parseMarkerOptions(optionsList, marker)`: fold the loop body over
the option strings. -/
def parseMarkerOptions (optionsList : List String) (marker : Marker) : Marker :=
  optionsList.foldl parseMarkerOption marker

/- ### Render timeout handling (`respondImage`) -/

/-- The pool operations `respondImage` performs on the checked-out
renderer. -/
inductive PoolAction where
  | removeBad
  | release
deriving DecidableEq

/-- A response sent to the HTTP caller. -/
structure HttpReply where
  status : Nat
  body : String
deriving DecidableEq

/-- The request-level state `respondImage` manipulates after checkout:
whether a response was sent (`res.headersSent`), whether
`clearTimeout(renderTimeout)` ran, every response sent, and every pool
action taken, in order. -/
structure RenderReqState where
  headersSent : Bool
  timeoutCleared : Bool
  replies : List HttpReply
  poolActions : List PoolAction
deriving DecidableEq

/-- State before either the timer or the render callback has run. -/
def initialRenderState : RenderReqState := ⟨false, false, [], []⟩

/-- The fixed render timeout of `setTimeout(..., 30000)`. -/
def renderTimeoutMs : Nat := 30000

/-- The asynchronous completions racing inside `respondImage`: the
30-second timer firing, or the `renderer.render` callback returning with
an optional error. -/
inductive RenderEvent where
  | timeoutFires
  | renderCompletes (err : Option String)
deriving DecidableEq

/-- Effect of one completion, mirroring `respondImage`
(the `setTimeout` handler and the `renderer.render` callback):
a fired timer (impossible once cleared) evicts the renderer
(`pool.removeBadObject`) and answers 503 if nothing was sent yet; the
render callback first clears the timer, returns at once when a response
was already sent (the late completion is discarded), evicts and answers
500 on a render error, and releases the renderer and answers 200 on
success (the sharp encode pipeline between release and `res.send` is
collapsed; its own `headersSent` guard cannot fire since the timer is
already cleared). -/
def stepRender (s : RenderReqState) : RenderEvent → RenderReqState
  | .timeoutFires =>
    if s.timeoutCleared then s
    else
      let s1 := { s with poolActions := s.poolActions ++ [PoolAction.removeBad] }
      if s1.headersSent then s1
      else
        { s1 with headersSent := true,
                  replies := s1.replies ++ [(⟨503, "Renderer timeout"⟩ : HttpReply)] }
  | .renderCompletes err =>
    let s1 := { s with timeoutCleared := true }
    if s1.headersSent then s1
    else
      match err with
      | some e =>
        { s1 with headersSent := true,
                  replies := s1.replies ++ [(⟨500, e⟩ : HttpReply)],
                  poolActions := s1.poolActions ++ [PoolAction.removeBad] }
      | none =>
        { s1 with headersSent := true,
                  replies := s1.replies ++ [(⟨200, "image"⟩ : HttpReply)],
                  poolActions := s1.poolActions ++ [PoolAction.release] }

/-- A whole race: the completions in the order they occur. -/
def runRenderEvents (evs : List RenderEvent) : RenderReqState :=
  evs.foldl stepRender initialRenderState

/- ### Final composition (`respondImage` composite list) -/

/-- The image layers of the final output. -/
inductive Layer where
  | base
  | overlay
  | watermark (text : String)
  | attribution (text : String)
deriving DecidableEq

/-- JS truthiness of an optional string: absence and `''` are falsy. -/
def jsTruthyStr : Option String → Bool
  | none => false
  | some s => decide (s ≠ "")

/-- The `composites` array `respondImage` builds over the base render:
the overlay buffer when present, the watermark when configured, and the
attribution box when in static mode with configured text, pushed in that
order. -/
def respondImageComposites (overlay : Bool) (watermark : Option String)
    (mode : String) (staticAttributionText : Option String) : List Layer :=
  (if overlay then [Layer.overlay] else []) ++
  (if jsTruthyStr watermark then [Layer.watermark (watermark.getD "")] else []) ++
  (if mode = "static" ∧ jsTruthyStr staticAttributionText then
    [Layer.attribution (staticAttributionText.getD "")]
  else [])

/-- The full layer stack: the base render, then the composites in the
order `image.composite` applies them. -/
def respondImageLayerOrder (overlay : Bool) (watermark : Option String)
    (mode : String) (staticAttributionText : Option String) : List Layer :=
  Layer.base :: respondImageComposites overlay watermark mode staticAttributionText

/- ### Helper lemmas -/

theorem breakAtChar_not_mem {sep : Char} {a : List Char} (h : sep ∉ a) :
    breakAtChar sep a = (a, none) := by
  induction a with
  | nil => rfl
  | cons c cs ih =>
    rw [breakAtChar, if_neg (fun hc : c = sep => h (hc ▸ List.mem_cons_self c cs))]
    rw [ih (fun hm => h (List.mem_cons_of_mem c hm))]

theorem breakAtChar_append {sep : Char} {a : List Char} (r : List Char)
    (h : sep ∉ a) : breakAtChar sep (a ++ sep :: r) = (a, some r) := by
  induction a with
  | nil => simp [breakAtChar]
  | cons c cs ih =>
    rw [List.cons_append, breakAtChar,
      if_neg (fun hc : c = sep => h (hc ▸ List.mem_cons_self c cs))]
    rw [ih (fun hm => h (List.mem_cons_of_mem c hm))]

theorem splitOnChar_not_mem {sep : Char} {a : List Char} (h : sep ∉ a) :
    splitOnChar sep a = [a] := by
  induction a with
  | nil => rfl
  | cons c cs ih =>
    rw [splitOnChar, if_neg (fun hc : c = sep => h (hc ▸ List.mem_cons_self c cs))]
    rw [ih (fun hm => h (List.mem_cons_of_mem c hm))]

theorem splitOnChar_append {sep : Char} {a : List Char} (r : List Char)
    (h : sep ∉ a) : splitOnChar sep (a ++ sep :: r) = a :: splitOnChar sep r := by
  induction a with
  | nil => simp [splitOnChar]
  | cons c cs ih =>
    rw [List.cons_append, splitOnChar,
      if_neg (fun hc : c = sep => h (hc ▸ List.mem_cons_self c cs))]
    rw [ih (fun hm => h (List.mem_cons_of_mem c hm))]

theorem getPMtilesInfoAux_attempts_le {α : Type} (behav : Nat → Except ErrMsg α)
    (mr fuel : Nat) : ∀ attempt, (getPMtilesInfoAux behav mr fuel attempt).attemptsMade ≤ fuel := by
  induction fuel with
  | zero => intro attempt; exact Nat.le_refl 0
  | succ fuel ih =>
    intro attempt
    rw [getPMtilesInfoAux]
    cases behav attempt with
    | ok v => exact Nat.succ_le_succ (Nat.zero_le _)
    | error e =>
      dsimp only
      by_cases h1 : e.has429 = true ∧ attempt < mr - 1
      · rw [if_pos h1]; exact Nat.succ_le_succ (ih (attempt + 1))
      · rw [if_neg h1]
        by_cases h2 : e.has429 = false ∨ attempt = mr - 1
        · rw [if_pos h2]; exact Nat.succ_le_succ (Nat.zero_le _)
        · rw [if_neg h2]; exact Nat.succ_le_succ (ih (attempt + 1))

theorem getPMtilesTileAux_attempts_le {α : Type}
    (behav : Nat → Except ErrMsg (Option α)) (mr fuel : Nat) :
    ∀ attempt, (getPMtilesTileAux behav mr fuel attempt).attemptsMade ≤ fuel := by
  induction fuel with
  | zero => intro attempt; exact Nat.le_refl 0
  | succ fuel ih =>
    intro attempt
    rw [getPMtilesTileAux]
    cases behav attempt with
    | ok v =>
      cases v with
      | none => exact Nat.succ_le_succ (Nat.zero_le _)
      | some d => exact Nat.succ_le_succ (Nat.zero_le _)
    | error e =>
      dsimp only
      by_cases h1 : e.has429 = true ∧ attempt < mr - 1
      · rw [if_pos h1]; exact Nat.succ_le_succ (ih (attempt + 1))
      · rw [if_neg h1]
        by_cases h2 : e.hasBadResponseCode = true
        · rw [if_pos h2]; exact Nat.succ_le_succ (Nat.zero_le _)
        · rw [if_neg h2]; exact Nat.succ_le_succ (ih (attempt + 1))

theorem getPMtilesTileAux_result_none {α : Type}
    (behav : Nat → Except ErrMsg (Option α)) (mr : Nat)
    (hall : ∀ i, ∃ e, behav i = Except.error e) (fuel : Nat) :
    ∀ attempt, (getPMtilesTileAux (α := α) behav mr fuel attempt).result = none := by
  induction fuel with
  | zero => intro attempt; rfl
  | succ fuel ih =>
    intro attempt
    obtain ⟨e, he⟩ := hall attempt
    rw [getPMtilesTileAux, he]
    dsimp only
    by_cases h1 : e.has429 = true ∧ attempt < mr - 1
    · rw [if_pos h1]; exact ih (attempt + 1)
    · rw [if_neg h1]
      by_cases h2 : e.hasBadResponseCode = true
      · rw [if_pos h2]
      · rw [if_neg h2]; exact ih (attempt + 1)

theorem foldl_stepRender_replies (evs : List RenderEvent) :
    ∀ s : RenderReqState, s.replies.length = (if s.headersSent then 1 else 0) →
      (evs.foldl stepRender s).replies.length =
        (if (evs.foldl stepRender s).headersSent then 1 else 0) := by
  induction evs with
  | nil => intro s hs; exact hs
  | cons e evs ih =>
    intro s hs
    refine ih (stepRender s e) ?_
    cases e with
    | timeoutFires =>
      by_cases hc : s.timeoutCleared
      · simpa [stepRender, hc] using hs
      · by_cases hh : s.headersSent
        · simpa [stepRender, hc, hh] using hs
        · simp only [stepRender, hc, if_false, hh]
          simp only [hh, if_false] at hs
          simp [hs]
    | renderCompletes err =>
      by_cases hh : s.headersSent
      · simpa [stepRender, hh] using hs
      · cases err with
        | some e0 =>
          simp only [stepRender, hh, if_false]
          simp only [hh, if_false] at hs
          simp [hs]
        | none =>
          simp only [stepRender, hh, if_false]
          simp only [hh, if_false] at hs
          simp [hs]

theorem parseMarkerOption_scale (m : Marker) (v : String) (hv : ':' ∉ v.data) :
    parseMarkerOption m ("scale:" ++ v) =
      (match jsParseFloat v.data with
       | some s => if 0 < s ∧ s < 10 then { m with scale := some s } else m
       | none => m) := by
  have hdata : ("scale:" ++ v).data = "scale".data ++ ':' :: v.data := by
    rw [String.data_append]; rfl
  have hsplit : splitOnChar ':' ("scale:" ++ v).data = ["scale".data, v.data] := by
    rw [hdata, splitOnChar_append _ (by decide), splitOnChar_not_mem hv]
  simp only [parseMarkerOption, hsplit]
  rw [if_pos trivial]

theorem parseMarkerOption_offset (m : Marker) (v : String) (hv : ':' ∉ v.data) :
    parseMarkerOption m ("offset:" ++ v) =
      (let providedOffset := splitOnChar ',' v.data
       let m1 :=
         match jsParseFloat (providedOffset.headD []) with
         | some x => if |x| < 1000 then { m with offsetX := some x } else m
         | none => m
       match providedOffset with
       | _ :: oy :: _ =>
         match jsParseFloat oy with
         | some y => if |y| < 1000 then { m1 with offsetY := some y } else m1
         | none => m1
       | _ => m1) := by
  have hdata : ("offset:" ++ v).data = "offset".data ++ ':' :: v.data := by
    rw [String.data_append]; rfl
  have hsplit : splitOnChar ':' ("offset:" ++ v).data = ["offset".data, v.data] := by
    rw [hdata, splitOnChar_append _ (by decide), splitOnChar_not_mem hv]
  simp only [parseMarkerOption, hsplit]
  rw [if_neg (by decide), if_pos trivial]

theorem matchCustomWithDot_eval {e b k : List Char} (he : '/' ∉ e) (hb : '/' ∉ b)
    (hd : hasDotWithTail e = true) (hbne : b ≠ []) (hkne : k ≠ []) :
    matchCustomWithDot (e ++ '/' :: (b ++ '/' :: k)) = some (e, b, k) := by
  simp only [matchCustomWithDot, breakAtChar_append _ he, breakAtChar_append _ hb]
  rw [if_pos ⟨hd, hbne, hkne⟩]

theorem matchAws_eval {b k : List Char} (hb : '/' ∉ b) (hbne : b ≠ []) (hkne : k ≠ []) :
    matchAws (b ++ '/' :: k) = some (b, k) := by
  simp only [matchAws, breakAtChar_append _ hb]
  rw [if_pos ⟨hbne, hkne⟩]

theorem matchCustomWithDot_none {b k : List Char} (hb : '/' ∉ b)
    (hnd : ¬(hasDotWithTail b = true ∧ '/' ∈ k)) :
    matchCustomWithDot (b ++ '/' :: k) = none := by
  simp only [matchCustomWithDot, breakAtChar_append _ hb]
  by_cases hk : '/' ∈ k
  · have hd : ¬hasDotWithTail b = true := fun h => hnd ⟨h, hk⟩
    cases hbk : breakAtChar '/' k with
    | mk p2 o =>
      cases o with
      | none => rfl
      | some r2 =>
        dsimp only
        rw [if_neg (fun hcon => hd hcon.1)]
  · rw [breakAtChar_not_mem hk]

theorem parseS3Url_auto_no_query (url : String) (envRegion : String)
    (hq : '?' ∉ url.data) :
    parseS3Url url none envRegion =
      (match s3Rest url.data with
       | none => none
       | some rest =>
         match matchCustomWithDot rest with
         | some m =>
           some { endpoint := some ("https://" ++ (⟨m.1⟩ : String))
                  bucket := ⟨m.2.1⟩
                  key := ⟨m.2.2⟩
                  region :=
                    ⟨if envRegion.data = [] then "us-east-1".data else envRegion.data⟩
                  profile := none
                  requestPayer := false }
         | none =>
           (matchAws rest).map (fun m =>
             { endpoint := none
               bucket := ⟨m.1⟩
               key := ⟨m.2⟩
               region :=
                 ⟨if envRegion.data = [] then "us-east-1".data else envRegion.data⟩
               profile := none
               requestPayer := false })) := by
  simp only [parseS3Url, breakAtChar_not_mem hq]
  simp

theorem s3url_data (e b k : String) :
    ("s3://" ++ e ++ "/" ++ b ++ "/" ++ k).data =
      's' :: '3' :: ':' :: '/' :: '/' :: (e.data ++ '/' :: (b.data ++ '/' :: k.data)) := by
  simp [String.data_append]

theorem s3url_data_aws (b k : String) :
    ("s3://" ++ b ++ "/" ++ k).data =
      's' :: '3' :: ':' :: '/' :: '/' :: (b.data ++ '/' :: k.data) := by
  simp [String.data_append]

/-- The natural-language claim C3, amended where the code refutes it:
for `s3://endpoint.with.dot/bucket/key` the parse recovers the endpoint
(as `https://` plus the hostname), bucket and key exactly; for
`s3://bucket/key` the parse recovers the bucket and key exactly whenever
the bucket does not contain an interior dot while the key contains a
slash (the precedence of the hostname-style pattern re-reads such a
string as the endpoint form). -/
theorem C3_s3_roundtrip_amended :
    (∀ e b k env : String,
      '/' ∉ e.data → '?' ∉ e.data → hasDotWithTail e.data = true →
      '/' ∉ b.data → '?' ∉ b.data → b.data ≠ [] →
      '?' ∉ k.data → k.data ≠ [] →
      (parseS3Url ("s3://" ++ e ++ "/" ++ b ++ "/" ++ k) none env).map
          (fun p => (p.endpoint, p.bucket, p.key)) =
        some (some ("https://" ++ e), b, k)) ∧
    (∀ b k env : String,
      '/' ∉ b.data → '?' ∉ b.data → b.data ≠ [] →
      '?' ∉ k.data → k.data ≠ [] →
      ¬(hasDotWithTail b.data = true ∧ '/' ∈ k.data) →
      (parseS3Url ("s3://" ++ b ++ "/" ++ k) none env).map
          (fun p => (p.endpoint, p.bucket, p.key)) =
        some (none, b, k)) := by
  constructor
  · intro e b k env he hqe hd hb hqb hbne hqk hkne
    have hq : '?' ∉ ("s3://" ++ e ++ "/" ++ b ++ "/" ++ k).data := by
      rw [s3url_data]
      simp only [List.mem_cons, List.mem_append]
      intro hmem
      rcases hmem with h | h | h | h | h | h
      · exact absurd h (by decide)
      · exact absurd h (by decide)
      · exact absurd h (by decide)
      · exact absurd h (by decide)
      · exact absurd h (by decide)
      rcases h with h | h
      · exact hqe h
      rcases h with h | h
      · exact absurd h (by decide)
      rcases h with h | h
      · exact hqb h
      rcases h with h | h
      · exact absurd h (by decide)
      · exact hqk h
    rw [parseS3Url_auto_no_query _ env hq, s3url_data]
    simp only [s3Rest]
    rw [matchCustomWithDot_eval he hb hd hbne hkne]
    rfl
  · intro b k env hb hqb hbne hqk hkne hnd
    have hq : '?' ∉ ("s3://" ++ b ++ "/" ++ k).data := by
      rw [s3url_data_aws]
      simp only [List.mem_cons, List.mem_append]
      intro hmem
      rcases hmem with h | h | h | h | h | h
      · exact absurd h (by decide)
      · exact absurd h (by decide)
      · exact absurd h (by decide)
      · exact absurd h (by decide)
      · exact absurd h (by decide)
      rcases h with h | h
      · exact hqb h
      rcases h with h | h
      · exact absurd h (by decide)
      · exact hqk h
    rw [parseS3Url_auto_no_query _ env hq, s3url_data_aws]
    simp only [s3Rest]
    rw [matchCustomWithDot_none hb hnd, matchAws_eval hb hbne hkne]
    rfl

/-- Refutation of claim C3 as stated: the string built from bucket
`my.bucket` and key `a/b` — a valid `s3://bucket/key` string — does not
round-trip: auto-detection's hostname-first precedence parses it as
endpoint `https://my.bucket`, bucket `a`, key `b`. -/
theorem C3_counterexample :
    (parseS3Url "s3://my.bucket/a/b" none "").map
        (fun p => (p.endpoint, p.bucket, p.key)) =
      some (some "https://my.bucket", "a", "b") ∧
    ("a" : String) ≠ "my.bucket" ∧ ("b" : String) ≠ "a/b" := by
  decide

/-- Witness: the amended round-trip at concrete inputs. -/
theorem C3_witness :
    (parseS3Url ("s3://" ++ "ep.io" ++ "/" ++ "bucket" ++ "/" ++ "some/key")
        none "").map (fun p => (p.endpoint, p.bucket, p.key)) =
      some (some ("https://" ++ "ep.io"), "bucket", "some/key") :=
  C3_s3_roundtrip_amended.1 "ep.io" "bucket" "some/key" ""
    (by decide) (by decide) (by decide) (by decide) (by decide) (by decide)
    (by decide) (by decide)


theorem getPMtilesTileAux_attempts_pos {α : Type}
    (behav : Nat → Except ErrMsg (Option α)) (mr fuel attempt : Nat)
    (hf : 0 < fuel) : 0 < (getPMtilesTileAux behav mr fuel attempt).attemptsMade := by
  cases fuel with
  | zero => exact absurd hf (by decide)
  | succ fuel =>
    rw [getPMtilesTileAux]
    cases behav attempt with
    | ok v =>
      cases v with
      | none => exact Nat.succ_pos 0
      | some d => exact Nat.succ_pos 0
    | error e =>
      dsimp only
      by_cases h1 : e.has429 = true ∧ attempt < mr - 1
      · rw [if_pos h1]; exact Nat.succ_pos _
      · rw [if_neg h1]
        by_cases h2 : e.hasBadResponseCode = true
        · rw [if_pos h2]; exact Nat.succ_pos 0
        · rw [if_neg h2]; exact Nat.succ_pos _

/-- The natural-language claim C1, amended where the code refutes it.
For `getPMtilesInfo` (default `maxRetries = 3`) every part of the claim
holds: at most 3 attempts; a non-rate-limit first failure is rethrown
after exactly one attempt with no delay; an all-rate-limited run makes
exactly 3 attempts with backoff delays `2^0` and `2^1` seconds (recorded
in milliseconds); a retry only ever happens when the first failure is a
rate-limit indicator.  For `getPMtilesTile` the rate-limit bound,
backoff, and the single-attempt handling of a first failure marked
`Bad response code:` hold, but — the amendment — a non-rate-limit
failure without that marker is re-attempted (at least a second
underlying attempt is made, with no backoff delay) instead of the
operation being attempted exactly once. -/
theorem C1_retry_amended :
    (∀ bI : Nat → Except ErrMsg Nat, (getPMtilesInfoRun bI 3).attemptsMade ≤ 3) ∧
    (∀ bI : Nat → Except ErrMsg Nat, ∀ e, bI 0 = .error e → e.has429 = false →
      getPMtilesInfoRun bI 3 = ⟨.thrown e, 1, []⟩) ∧
    (∀ bI : Nat → Except ErrMsg Nat,
      (∀ i, ∃ e, bI i = .error e ∧ e.has429 = true) →
      (getPMtilesInfoRun bI 3).attemptsMade = 3 ∧
        (getPMtilesInfoRun bI 3).delays = [1000, 2000]) ∧
    (∀ bI : Nat → Except ErrMsg Nat, 1 < (getPMtilesInfoRun bI 3).attemptsMade →
      ∃ e, bI 0 = .error e ∧ e.has429 = true) ∧
    (∀ bT : Nat → Except ErrMsg (Option Nat),
      (getPMtilesTileRun bT 3).attemptsMade ≤ 3) ∧
    (∀ bT : Nat → Except ErrMsg (Option Nat), ∀ e, bT 0 = .error e →
      e.has429 = false → e.hasBadResponseCode = true →
      getPMtilesTileRun bT 3 = ⟨none, 1, []⟩) ∧
    (∀ bT : Nat → Except ErrMsg (Option Nat),
      (∀ i, ∃ e, bT i = .error e ∧ e.has429 = true) →
      (getPMtilesTileRun bT 3).attemptsMade = 3 ∧
        (getPMtilesTileRun bT 3).delays = [1000, 2000] ∧
        (getPMtilesTileRun bT 3).result = none) ∧
    (∀ bT : Nat → Except ErrMsg (Option Nat), ∀ e, bT 0 = .error e →
      e.has429 = false → e.hasBadResponseCode = false →
      2 ≤ (getPMtilesTileRun bT 3).attemptsMade) := by
  refine ⟨?_, ?_, ?_, ?_, ?_, ?_, ?_, ?_⟩
  · intro bI
    exact getPMtilesInfoAux_attempts_le bI 3 3 0
  · intro bI e hb he
    rw [getPMtilesInfoRun, getPMtilesInfoAux, hb]
    dsimp only
    rw [if_neg (fun hcon => by rw [he] at hcon; exact absurd hcon.1 (by decide)),
      if_pos (Or.inl he)]
  · intro bI hall
    obtain ⟨e0, h0, h0t⟩ := hall 0
    obtain ⟨e1, h1, h1t⟩ := hall 1
    obtain ⟨e2, h2, h2t⟩ := hall 2
    have s2 : getPMtilesInfoAux bI 3 1 2 = ⟨.thrown e2, 1, []⟩ := by
      rw [getPMtilesInfoAux, h2]
      dsimp only
      rw [if_neg (fun hcon => absurd hcon.2 (by decide)), if_pos (Or.inr rfl)]
    have s1 : getPMtilesInfoAux bI 3 2 1 = ⟨.thrown e2, 2, [2000]⟩ := by
      rw [getPMtilesInfoAux, h1]
      dsimp only
      rw [if_pos ⟨h1t, by decide⟩, s2]
      rfl
    have s0 : getPMtilesInfoAux bI 3 3 0 = ⟨.thrown e2, 3, [1000, 2000]⟩ := by
      rw [getPMtilesInfoAux, h0]
      dsimp only
      rw [if_pos ⟨h0t, by decide⟩, s1]
      rfl
    rw [getPMtilesInfoRun, s0]
    exact ⟨rfl, rfl⟩
  · intro bI hgt
    cases hb : bI 0 with
    | ok v =>
      rw [getPMtilesInfoRun, getPMtilesInfoAux, hb] at hgt
      dsimp only at hgt
      exact absurd hgt (by decide)
    | error e =>
      by_cases he : e.has429 = true
      · exact ⟨e, rfl, he⟩
      · have he' : e.has429 = false := by
          cases hc : e.has429
          · rfl
          · exact absurd hc he
        rw [getPMtilesInfoRun, getPMtilesInfoAux, hb] at hgt
        dsimp only at hgt
        rw [if_neg (fun hcon => by rw [he'] at hcon; exact absurd hcon.1 (by decide)),
          if_pos (Or.inl he')] at hgt
        dsimp only at hgt
        exact absurd hgt (by decide)
  · intro bT
    exact getPMtilesTileAux_attempts_le bT 3 3 0
  · intro bT e hb he hbad
    rw [getPMtilesTileRun, getPMtilesTileAux, hb]
    dsimp only
    rw [if_neg (fun hcon => by rw [he] at hcon; exact absurd hcon.1 (by decide)),
      if_pos hbad]
  · intro bT hall
    obtain ⟨e0, h0, h0t⟩ := hall 0
    obtain ⟨e1, h1, h1t⟩ := hall 1
    obtain ⟨e2, h2, h2t⟩ := hall 2
    have s2 : getPMtilesTileAux bT 3 1 2 = ⟨none, 1, []⟩ := by
      rw [getPMtilesTileAux, h2]
      dsimp only
      rw [if_neg (fun hcon => absurd hcon.2 (by decide))]
      by_cases hbad : e2.hasBadResponseCode = true
      · rw [if_pos hbad]
      · rw [if_neg hbad]
        rfl
    have s1 : getPMtilesTileAux bT 3 2 1 = ⟨none, 2, [2000]⟩ := by
      rw [getPMtilesTileAux, h1]
      dsimp only
      rw [if_pos ⟨h1t, by decide⟩, s2]
      rfl
    have s0 : getPMtilesTileAux bT 3 3 0 = ⟨none, 3, [1000, 2000]⟩ := by
      rw [getPMtilesTileAux, h0]
      dsimp only
      rw [if_pos ⟨h0t, by decide⟩, s1]
      rfl
    rw [getPMtilesTileRun, s0]
    exact ⟨rfl, rfl, rfl⟩
  · intro bT e hb he hbad
    rw [getPMtilesTileRun, getPMtilesTileAux, hb]
    dsimp only
    rw [if_neg (fun hcon => by rw [he] at hcon; exact absurd hcon.1 (by decide)),
      if_neg (fun hcon => by rw [hbad] at hcon; exact absurd hcon (by decide))]
    exact Nat.succ_le_succ (getPMtilesTileAux_attempts_pos bT 3 2 1 (by decide))

/-- Refutation of claim C1 as stated: a run of `getPMtilesTile` whose
every attempt fails with a generic error (no `'429'`, no
`'Bad response code:'`) performs 3 underlying attempts, not exactly one,
although the first failure is not a rate-limit indicator. -/
theorem C1_counterexample :
    (ErrMsg.has429 ⟨false, false⟩) = false ∧
    (getPMtilesTileRun (fun _ => Except.error ⟨false, false⟩) 3 :
        TileTrace Unit).attemptsMade = 3 ∧
    (3 : Nat) ≠ 1 ∧
    (getPMtilesTileRun (fun _ => Except.error ⟨false, false⟩) 3 :
        TileTrace Unit).delays = [] := by
  decide

/-- Witness: the amended claim at a concrete run (a non-rate-limit first
failure of `getPMtilesInfo` is attempted exactly once and rethrown). -/
theorem C1_witness :
    getPMtilesInfoRun (fun _ => Except.error ⟨false, false⟩) 3 =
      (⟨.thrown ⟨false, false⟩, 1, []⟩ : InfoTrace Nat) :=
  C1_retry_amended.2.1 (fun _ => Except.error ⟨false, false⟩) ⟨false, false⟩ rfl rfl

/-- C2: on a tile miss (`fetchTileData` returned null), a source marked
sparse gets the explicit absent callback — never an error — and a source
not marked sparse gets the synthesized empty response built from the
source's declared format and background color. -/
theorem C2_resolver_miss :
    (∀ format color : Option String,
      resolveArchiveTile (δ := Unit) none (some true) format color =
        ResolverOutcome.absent) ∧
    (∀ (format color : Option String) (e : String),
      resolveArchiveTile (δ := Unit) none (some true) format color ≠
        ResolverOutcome.failed e) ∧
    (∀ (format color : Option String) (sparse : Option Bool), sparse ≠ some true →
      resolveArchiveTile (δ := Unit) none sparse format color =
        ResolverOutcome.empty format color) := by
  refine ⟨fun _ _ => rfl, fun _ _ e h => ResolverOutcome.noConfusion h, ?_⟩
  intro format color sparse hsp
  match sparse with
  | none => rfl
  | some false => rfl
  | some true => exact absurd rfl hsp

/-- Witness: C2 at a concrete format and color. -/
theorem C2_witness :
    resolveArchiveTile (δ := Unit) none (some true) (some "pbf") none =
      ResolverOutcome.absent :=
  C2_resolver_miss.1 (some "pbf") none

/-- C7: a fired render timeout evicts the handle (never a release) and
answers the caller with the timeout error; a completion arriving after
the timeout is discarded, and no race ever produces more than one
response; the timeout constant is 30 seconds. -/
theorem C7_render_timeout :
    renderTimeoutMs = 30000 ∧
    (∀ err : Option String,
      runRenderEvents [RenderEvent.timeoutFires, RenderEvent.renderCompletes err] =
        ⟨true, true, [⟨503, "Renderer timeout"⟩], [PoolAction.removeBad]⟩) ∧
    (∀ evs : List RenderEvent, (runRenderEvents evs).replies.length ≤ 1) := by
  refine ⟨rfl, fun err => rfl, ?_⟩
  intro evs
  have h := foldl_stepRender_replies evs initialRenderState rfl
  rw [runRenderEvents] at *
  rw [h]
  split <;> decide

/-- Witness: C7 at the concrete timeout-then-late-success race. -/
theorem C7_witness :
    runRenderEvents [RenderEvent.timeoutFires, RenderEvent.renderCompletes none] =
      ⟨true, true, [⟨503, "Renderer timeout"⟩], [PoolAction.removeBad]⟩ :=
  C7_render_timeout.2.1 none

/-- C8: `getPMtilesTile` answers the distinguished no-tile result on any
run whose attempts all fail (the translation's result type has no
throwing outcome — every branch of the source's catch returns, retries
or falls through to `return null`), and a first failure marked
`Bad response code:` produces exactly the same trace as a tile miss. -/
theorem C8_getTile_no_throw :
    (∀ bT : Nat → Except ErrMsg (Option Nat),
      (∀ i, ∃ e, bT i = Except.error e) →
      (getPMtilesTileRun bT 3).result = none) ∧
    (∀ bT : Nat → Except ErrMsg (Option Nat), ∀ e, bT 0 = Except.error e →
      e.hasBadResponseCode = true → e.has429 = false →
      getPMtilesTileRun bT 3 = getPMtilesTileRun (fun _ => Except.ok none) 3) := by
  constructor
  · intro bT hall
    exact getPMtilesTileAux_result_none bT 3 hall 3 0
  · intro bT e hb hbad he
    rw [getPMtilesTileRun, getPMtilesTileAux, hb]
    dsimp only
    rw [if_neg (fun hcon => by rw [he] at hcon; exact absurd hcon.1 (by decide)),
      if_pos hbad]
    rfl

/-- Witness: C8 at a concrete always-rate-limited run. -/
theorem C8_witness :
    (getPMtilesTileRun (fun _ => Except.error ⟨true, false⟩) 3 :
      TileTrace Nat).result = none :=
  C8_getTile_no_throw.1 (fun _ => Except.error ⟨true, false⟩)
    (fun _ => ⟨⟨true, false⟩, rfl⟩)

/-- C10: a header center zoom of exactly 0 is falsy, so `getPMtilesInfo`
computes the same center as for an absent center zoom:
`(centerLon, centerLat, maxzoom / 2)`. -/
theorem C10_centerZoom_zero (h : PMHeader) (hz : h.centerZoom = some 0) :
    (buildPMtilesMetadata h).center =
      (h.centerLon, h.centerLat, (h.maxZoom : Rat) / 2) ∧
    buildPMtilesMetadata h = buildPMtilesMetadata { h with centerZoom := none } := by
  have ht : jsTruthyNum h.centerZoom = false := by
    rw [hz]
    simp [jsTruthyNum]
  constructor
  · simp only [buildPMtilesMetadata]
    rw [if_neg (fun hcon => by rw [ht] at hcon; exact absurd hcon (by decide))]
  · simp only [buildPMtilesMetadata, ht]
    rfl

/-- Witness: C10 at a concrete header with center zoom 0. -/
theorem C10_witness :
    (buildPMtilesMetadata ⟨1, 0, 7, none, none, none, none, 5, 6, some 0⟩).center =
      (5, 6, (7 : Rat) / 2) :=
  (C10_centerZoom_zero ⟨1, 0, 7, none, none, none, none, 5, 6, some 0⟩ rfl).1

/-- Refutation of claim C5 as stated: for an all-zero bounds header the
code's default is `[-180, -85.05112877980659, 180, 85.0511287798066]`,
which differs from the claimed `[-180, -85.0511288, 180, 85.0511288]`. -/
theorem C5_counterexample :
    (buildPMtilesMetadata ⟨1, 0, 7, some 0, some 0, some 0, some 0, 0, 0, none⟩).bounds ≠
      [-180, -(850511288 : Rat) / 10000000, 180, (850511288 : Rat) / 10000000] ∧
    (buildPMtilesMetadata ⟨1, 0, 7, some 0, some 0, some 0, some 0, 0, 0, none⟩).bounds =
      defaultBoundsLiteral := by
  have hb : (buildPMtilesMetadata
      ⟨1, 0, 7, some 0, some 0, some 0, some 0, 0, 0, none⟩).bounds =
      defaultBoundsLiteral := by
    simp [buildPMtilesMetadata]
  refine ⟨?_, hb⟩
  rw [hb]
  simp only [defaultBoundsLiteral, ne_eq, List.cons.injEq, List.cons_ne_self]
  norm_num

/-- The natural-language claim C5, amended where the code refutes it:
an all-zero or missing bounds field defaults to the source's literal
`[-180, -85.05112877980659, 180, 85.0511287798066]` (the claim's
`±85.0511288` is not the code's constant), and an all-zero bounds value
is never passed through as the metadata bounds. -/
theorem C5_bounds_default_amended (h : PMHeader) :
    ((h.minLon = some 0 ∧ h.minLat = some 0 ∧ h.maxLon = some 0 ∧ h.maxLat = some 0) →
      (buildPMtilesMetadata h).bounds = defaultBoundsLiteral) ∧
    ((h.minLon = none ∨ h.minLat = none ∨ h.maxLon = none ∨ h.maxLat = none) →
      (buildPMtilesMetadata h).bounds = defaultBoundsLiteral) ∧
    (buildPMtilesMetadata h).bounds ≠ [0, 0, 0, 0] ∧
    defaultBoundsLiteral =
      [-180, -(8505112877980659 : Rat) / 100000000000000, 180,
        (850511287798066 : Rat) / 10000000000000] := by
  refine ⟨?_, ?_, ?_, rfl⟩
  · intro hall
    simp only [buildPMtilesMetadata]
    rw [if_neg (fun hcon => hcon.2 hall)]
  · intro hnone
    simp only [buildPMtilesMetadata]
    rcases hnone with hn | hn | hn | hn
    · rw [if_neg (fun hcon => by rw [hn] at hcon; exact absurd hcon.1.1 (by decide))]
    · rw [if_neg (fun hcon => by rw [hn] at hcon; exact absurd hcon.1.2.1 (by decide))]
    · rw [if_neg (fun hcon => by rw [hn] at hcon; exact absurd hcon.1.2.2.1 (by decide))]
    · rw [if_neg (fun hcon => by rw [hn] at hcon; exact absurd hcon.1.2.2.2 (by decide))]
  · simp only [buildPMtilesMetadata]
    by_cases hc :
        (h.minLon.isSome = true ∧ h.minLat.isSome = true ∧
          h.maxLon.isSome = true ∧ h.maxLat.isSome = true) ∧
        ¬(h.minLon = some 0 ∧ h.minLat = some 0 ∧
          h.maxLon = some 0 ∧ h.maxLat = some 0)
    · rw [if_pos hc]
      intro heq
      apply hc.2
      obtain ⟨⟨s1, s2, s3, s4⟩, -⟩ := hc
      obtain ⟨x1, hx1⟩ := Option.isSome_iff_exists.mp s1
      obtain ⟨x2, hx2⟩ := Option.isSome_iff_exists.mp s2
      obtain ⟨x3, hx3⟩ := Option.isSome_iff_exists.mp s3
      obtain ⟨x4, hx4⟩ := Option.isSome_iff_exists.mp s4
      simp only [List.cons.injEq, and_true] at heq
      obtain ⟨e1, e2, e3, e4⟩ := heq
      rw [hx1] at e1 ⊢
      rw [hx2] at e2 ⊢
      rw [hx3] at e3 ⊢
      rw [hx4] at e4 ⊢
      simp only [Option.getD_some] at e1 e2 e3 e4
      rw [e1, e2, e3, e4]
      exact ⟨rfl, rfl, rfl, rfl⟩
    · rw [if_neg hc]
      intro heq
      rw [defaultBoundsLiteral] at heq
      simp only [List.cons.injEq] at heq
      have h180 : (-180 : Rat) = 0 := heq.1
      norm_num at h180

/-- Witness: the amended default at a concrete all-zero-bounds header. -/
theorem C5_witness :
    (buildPMtilesMetadata ⟨1, 0, 7, some 0, some 0, some 0, some 0, 0, 0, none⟩).bounds =
      defaultBoundsLiteral :=
  (C5_bounds_default_amended ⟨1, 0, 7, some 0, some 0, some 0, some 0, 0, 0, none⟩).1
    ⟨rfl, rfl, rfl, rfl⟩

/-- C9: the final composition stacks the base render first and then the
composites in the fixed order overlay → watermark → static-mode
attribution: the stack is always a sublist of that full order, the
overlay layer appears exactly when an overlay buffer is present, the
watermark when configured, and the attribution layer only in static
mode with configured text. -/
theorem C9_composition_order :
    (∀ (ov : Bool) (wm : Option String) (mode : String) (att : Option String),
      (respondImageLayerOrder ov wm mode att).head? = some Layer.base) ∧
    (∀ (ov : Bool) (wm : Option String) (mode : String) (att : Option String),
      List.Sublist (respondImageLayerOrder ov wm mode att)
        [Layer.base, Layer.overlay, Layer.watermark (wm.getD ""),
          Layer.attribution (att.getD "")]) ∧
    (∀ (ov : Bool) (wm : Option String) (mode : String) (att : Option String),
      (Layer.overlay ∈ respondImageLayerOrder ov wm mode att ↔ ov = true)) ∧
    (∀ (ov : Bool) (wm : Option String) (mode : String) (att : Option String),
      jsTruthyStr wm = true →
      Layer.watermark (wm.getD "") ∈ respondImageLayerOrder ov wm mode att) ∧
    (∀ (ov : Bool) (wm : Option String) (mode : String) (att : Option String)
      (t : String), mode ≠ "static" →
      Layer.attribution t ∉ respondImageLayerOrder ov wm mode att) ∧
    (∀ (ov : Bool) (wm att : Option String), jsTruthyStr att = true →
      Layer.attribution (att.getD "") ∈ respondImageLayerOrder ov wm "static" att) := by
  refine ⟨fun _ _ _ _ => rfl, ?_, ?_, ?_, ?_, ?_⟩
  · intro ov wm mode att
    simp only [respondImageLayerOrder, respondImageComposites]
    split_ifs <;> simp
  · intro ov wm mode att
    simp only [respondImageLayerOrder, respondImageComposites]
    cases ov <;> split_ifs <;> simp_all
  · intro ov wm mode att hwm
    simp only [respondImageLayerOrder, respondImageComposites, hwm]
    split_ifs <;> simp
  · intro ov wm mode att t hmode
    simp only [respondImageLayerOrder, respondImageComposites]
    split_ifs with h1 h2 <;> simp_all
  · intro ov wm att hatt
    simp only [respondImageLayerOrder, respondImageComposites, hatt]
    split_ifs <;> simp_all

/-- Witness: C9 with every layer present. -/
theorem C9_witness :
    List.Sublist (respondImageLayerOrder true (some "wm") "static" (some "attr"))
      [Layer.base, Layer.overlay, Layer.watermark ((some "wm").getD ""),
        Layer.attribution ((some "attr").getD "")] :=
  C9_composition_order.2.1 true (some "wm") "static" (some "attr")

theorem jsParseFloat_two : jsParseFloat "2".data = some 2 := by
  have h : jsParseFloatParts "2".data = some (false, 2, 0, 0) := by decide
  rw [jsParseFloat, h]
  simp

theorem jsParseFloat_twenty : jsParseFloat "20".data = some 20 := by
  have h : jsParseFloatParts "20".data = some (false, 20, 0, 0) := by decide
  rw [jsParseFloat, h]
  simp

theorem jsParseFloat_ten : jsParseFloat "10".data = some 10 := by
  have h : jsParseFloatParts "10".data = some (false, 10, 0, 0) := by decide
  rw [jsParseFloat, h]
  simp

theorem jsParseFloat_minus_five : jsParseFloat "-5".data = some (-5) := by
  have h : jsParseFloatParts "-5".data = some (true, 5, 0, 0) := by decide
  rw [jsParseFloat, h]
  simp

/-- C6: the option list `scale:2|offset:10,-5` yields scale 2, X offset
10, Y offset −5; an out-of-range scale (`scale:20`) leaves the scale
unset; and for any marker, a scale value that does not parse or lies
outside (0, 10), and an offset value that does not parse or has absolute
value ≥ 1000, leave the marker unchanged (the field stays omitted, never
zeroed). -/
theorem C6_marker_options :
    parseMarkerOptions ["scale:2", "offset:10,-5"] {} =
      { scale := some 2, offsetX := some 10, offsetY := some (-5) } ∧
    (∀ m : Marker, parseMarkerOptions ["scale:20"] m = m) ∧
    (∀ (m : Marker) (v : String), ':' ∉ v.data → jsParseFloat v.data = none →
      parseMarkerOption m ("scale:" ++ v) = m) ∧
    (∀ (m : Marker) (v : String) (s : Rat), ':' ∉ v.data →
      jsParseFloat v.data = some s → ¬(0 < s ∧ s < 10) →
      parseMarkerOption m ("scale:" ++ v) = m) ∧
    (∀ (m : Marker) (v : String), ':' ∉ v.data → ',' ∉ v.data →
      jsParseFloat v.data = none → parseMarkerOption m ("offset:" ++ v) = m) ∧
    (∀ (m : Marker) (v : String) (x : Rat), ':' ∉ v.data → ',' ∉ v.data →
      jsParseFloat v.data = some x → ¬(|x| < 1000) →
      parseMarkerOption m ("offset:" ++ v) = m) := by
  refine ⟨?_, ?_, ?_, ?_, ?_, ?_⟩
  · show parseMarkerOptions ["scale:" ++ "2", "offset:" ++ "10,-5"] {} = _
    simp only [parseMarkerOptions, List.foldl]
    rw [parseMarkerOption_scale _ _ (by decide), jsParseFloat_two]
    dsimp only
    rw [if_pos (by norm_num)]
    rw [parseMarkerOption_offset _ _ (by decide)]
    have hsplit : splitOnChar ',' "10,-5".data = ["10".data, "-5".data] := by decide
    simp only [hsplit, List.headD_cons]
    rw [show jsParseFloat ['-', '5'] = some (-5) from jsParseFloat_minus_five,
      show jsParseFloat ['1', '0'] = some 10 from jsParseFloat_ten]
    dsimp only
    rw [if_pos (by norm_num), if_pos (by norm_num)]
  · intro m
    show parseMarkerOption m ("scale:" ++ "20") = m
    rw [parseMarkerOption_scale _ _ (by decide), jsParseFloat_twenty]
    dsimp only
    rw [if_neg (fun hcon => absurd hcon.2 (by norm_num))]
  · intro m v hv hnone
    rw [parseMarkerOption_scale _ _ hv, hnone]
  · intro m v s hv hsome hrange
    rw [parseMarkerOption_scale _ _ hv, hsome]
    dsimp only
    rw [if_neg hrange]
  · intro m v hv hc hnone
    rw [parseMarkerOption_offset _ _ hv]
    have hs := splitOnChar_not_mem hc
    simp only [hs, List.headD_cons, hnone]
  · intro m v x hv hc hsome habs
    rw [parseMarkerOption_offset _ _ hv]
    have hs := splitOnChar_not_mem hc
    simp only [hs, List.headD_cons, hsome]
    rw [if_neg habs]

/-- Witness: C6 at the concrete out-of-range scale option. -/
theorem C6_witness : parseMarkerOptions ["scale:20"] {} = ({} : Marker) :=
  C6_marker_options.2.1 {}

/-- C4: for each of profile, region and requestPayer independently, an
explicit (truthy, for the strings; merely present, for the boolean)
caller configuration value wins over the URL-parsed value; absent caller
configuration falls back to the URL-parsed value, which itself
supersedes the environment/default (shown on a URL whose query sets all
three: the parse result is the query values for every environment
region).  The boolean is presence-based: an explicit `false` is
honored. -/
theorem C4_config_precedence :
    (∀ (cfg : S3CallerConfig) (p : S3Parsed) (r : String),
      cfg.configRegion = some r → r ≠ "" → (resolveS3Settings cfg p).region = r) ∧
    (∀ (cfg : S3CallerConfig) (p : S3Parsed), cfg.configRegion = none →
      (resolveS3Settings cfg p).region = p.region) ∧
    (∀ (cfg : S3CallerConfig) (p : S3Parsed) (s : String),
      cfg.s3Profile = some s → s ≠ "" →
      (resolveS3Settings cfg p).profile = some s) ∧
    (∀ (cfg : S3CallerConfig) (p : S3Parsed), cfg.s3Profile = none →
      (resolveS3Settings cfg p).profile = p.profile) ∧
    (∀ (cfg : S3CallerConfig) (p : S3Parsed) (b : Bool),
      cfg.configRequestPayer = some b →
      (resolveS3Settings cfg p).requestPayer = b) ∧
    (∀ (cfg : S3CallerConfig) (p : S3Parsed), cfg.configRequestPayer = none →
      (resolveS3Settings cfg p).requestPayer = p.requestPayer) ∧
    (∀ env : String,
      parseS3Url "s3://bucket/key?profile=meprof&region=eu-west-3&requestPayer=true"
        none env =
      some { endpoint := none, bucket := "bucket", key := "key",
             region := "eu-west-3", profile := some "meprof",
             requestPayer := true }) := by
  refine ⟨?_, ?_, ?_, ?_, ?_, ?_, fun env => rfl⟩
  · intro cfg p r hr hne
    simp [resolveS3Settings, hr, hne]
  · intro cfg p hr
    simp [resolveS3Settings, hr]
  · intro cfg p s hs hne
    simp [resolveS3Settings, jsOrStr, hs, hne]
  · intro cfg p hs
    simp [resolveS3Settings, jsOrStr, hs]
  · intro cfg p b hb
    simp [resolveS3Settings, hb]
  · intro cfg p hb
    simp [resolveS3Settings, hb]

/-- Witness: an explicit `requestPayer := false` override beats a
URL-parsed `true` (presence-based precedence). -/
theorem C4_witness :
    (resolveS3Settings ⟨none, some false, none⟩
        ⟨none, "b", "k", "r", none, true⟩).requestPayer = false :=
  C4_config_precedence.2.2.2.2.1 ⟨none, some false, none⟩
    ⟨none, "b", "k", "r", none, true⟩ false rfl
